import Mathlib

/-!
Verification of the mcp-sql core against its specification.

Strings are shallowly embedded as `List Char` (`Str`).  Rust's
`str::to_uppercase` is embedded char-wise via `Char.toUpper`, which agrees
with Rust on ASCII; no theorem below depends on uppercasing a non-ASCII
character.  Rust's `str::trim_start` / `trim_end` trim Unicode whitespace;
the embedding uses `Char.isWhitespace` (ASCII whitespace), which agrees on
every input these theorems evaluate.
-/

namespace McpSql

/-- The string model: a Rust `&str` / `String` as a list of characters. -/
abbrev Str := List Char

/-- Embeds `str::to_uppercase`, char-wise (exact on ASCII). -/
def toUpperStr (s : Str) : Str := s.map Char.toUpper

/-- Embeds `str::trim_start`. -/
def trimStart (s : Str) : Str := s.dropWhile Char.isWhitespace

/-- Embeds `str::trim_end`. -/
def trimEnd (s : Str) : Str := (s.reverse.dropWhile Char.isWhitespace).reverse

/-- Embeds `str::trim_end_matches(';')`: removes every trailing semicolon. -/
def trimEndSemis (s : Str) : Str := (s.reverse.dropWhile (fun c => c == ';')).reverse

/-- Embeds `str::starts_with(p)` on the model: `p` is a prefix of `s`. -/
def startsWith (s p : Str) : Bool := decide (p <+: s)

/-- Embeds `str::contains(pat)` on the model: `pat` is a substring of `s`. -/
def containsSub (s pat : Str) : Bool := decide (pat <:+: s)

/-- Embeds `Vec::join(", ")` from `DatabaseManager::resolve` (src/db/mod.rs). -/
def joinComma : List Str → Str
  | [] => []
  | [x] => x
  | x :: y :: rest => x ++ ", ".data ++ joinComma (y :: rest)

/-- The error enum `McpSqlError` from src/error.rs.  The `Database` variant
carries a backend error; only its message is modelled.  Note the enum has no
`TableNotFound` variant: empty introspection results are reported with the
`Other` variant. -/
inductive McpSqlError where
  | Database (msg : Str)
  | ReadOnly (msg : Str)
  | DatabaseNotFound (msg : Str)
  | AmbiguousDatabase
  | InvalidSql (msg : Str)
  | QueryTimeout (secs : Nat)
  | Other (msg : Str)
deriving DecidableEq

/-- The allow-list of leading keywords from `check_read_only` (src/server.rs). -/
def allowedKeywords : List Str :=
  ["SELECT".data, "WITH".data, "SHOW".data, "PRAGMA".data, "EXPLAIN".data]

/-- The rejection message built in `check_read_only` (src/server.rs). -/
def readOnlyMsg : Str :=
  ("Only SELECT/WITH/SHOW/PRAGMA/EXPLAIN queries are allowed in read-only mode. " ++
   "Start the server with --allow-write to enable write operations.").data

/-- Embeds `check_read_only` (src/server.rs lines 271-283): uppercase the
trimmed statement and accept when it starts with an allowed keyword,
otherwise reject with the `ReadOnly` error. -/
def check_read_only (sql : Str) : Except McpSqlError Unit :=
  let upper := toUpperStr (trimStart sql)
  if allowedKeywords.any (fun p => startsWith upper p) then Except.ok ()
  else Except.error (McpSqlError.ReadOnly readOnlyMsg)

/-- Modelled from the spec's words, for comparison with `check_read_only`:
the trimmed, uppercased statement's first whitespace-delimited token. -/
def firstTokenUpper (sql : Str) : Str :=
  (toUpperStr (trimStart sql)).takeWhile (fun c => !c.isWhitespace)

/-- The first guard of `inject_limit` (src/server.rs line 289): the uppercased
statement, after leading whitespace, starts with `SELECT` or `WITH`. -/
def beginsSelectOrWith (sql : Str) : Bool :=
  startsWith (trimStart (toUpperStr sql)) "SELECT".data ||
  startsWith (trimStart (toUpperStr sql)) "WITH".data

/-- The second guard of `inject_limit` (src/server.rs line 292): the uppercased
statement contains the substring `" LIMIT "`. -/
def hasLimitSub (sql : Str) : Bool := containsSub (toUpperStr sql) " LIMIT ".data

/-- The terminator strip of `inject_limit` (src/server.rs line 296):
`sql.trim_end().trim_end_matches(';')`. -/
def stripTerminator (sql : Str) : Str := trimEndSemis (trimEnd sql)

/-- Embeds `inject_limit` (src/server.rs lines 286-298).  The Rust `u32`
limit is modelled as `Nat`; `format!` renders it in decimal
(`Nat.toDigits 10`). -/
def inject_limit (sql : Str) (limit : Nat) : Str :=
  if !beginsSelectOrWith sql then sql
  else if hasLimitSub sql then sql
  else stripTerminator sql ++ " LIMIT ".data ++ Nat.toDigits 10 limit

/-- Embeds Rust `char::is_alphanumeric` (Unicode Alphabetic or Numeric), as
called by `sanitize_identifier` (src/db/dialect.rs line 246).  The Unicode
character properties are reproduced exactly on the code points U+0000-U+00FF
(ASCII letters and digits; the Latin-1 letters U+00AA, U+00B5, U+00BA,
U+00C0-U+00D6, U+00D8-U+00F6, U+00F8-U+00FF; the Latin-1 numeric signs
U+00B2, U+00B3, U+00B9, U+00BC-U+00BE).  Code points above U+00FF, where the
full Unicode tables would be needed, are mapped to `true`; no theorem below
evaluates the sanitizer on such a character, and no theorem's truth depends
on the predicate's extension there. -/
def char_is_alphanumeric (c : Char) : Bool :=
  c.isAlpha || c.isDigit ||
  (c.toNat == 0xAA) || (c.toNat == 0xB5) || (c.toNat == 0xBA) ||
  (c.toNat == 0xB2) || (c.toNat == 0xB3) || (c.toNat == 0xB9) ||
  (0xBC ≤ c.toNat && c.toNat ≤ 0xBE) ||
  (0xC0 ≤ c.toNat && c.toNat ≤ 0xD6) ||
  (0xD8 ≤ c.toNat && c.toNat ≤ 0xF6) ||
  (0xF8 ≤ c.toNat)

/-- The per-character filter of `sanitize_identifier` (src/db/dialect.rs
line 246): `c.is_alphanumeric() || c == '_' || c == '.' || c == '-'`. -/
def identCharOk (c : Char) : Bool :=
  char_is_alphanumeric c || c == '_' || c == '.' || c == '-'

/-- The rejection message built in `sanitize_identifier`
(src/db/dialect.rs lines 251-253). -/
def invalidIdentMsg (name : Str) : Str :=
  "Invalid identifier: \x27".data ++ name ++ "\x27".data

/-- Embeds `sanitize_identifier` (src/db/dialect.rs lines 242-255). -/
def sanitize_identifier (name : Str) : Except McpSqlError Str :=
  if name.all identCharOk && !name.isEmpty then Except.ok name
  else Except.error (McpSqlError.InvalidSql (invalidIdentMsg name))

/-- Modelled from the claim's words, for comparison with `identCharOk`:
an ASCII letter, ASCII digit, underscore, period, or hyphen. -/
def asciiIdentChar (c : Char) : Bool :=
  c.isAlpha || c.isDigit || c == '_' || c == '.' || c == '-'

/-- The backend enum `DbBackend` from src/db/mod.rs. -/
inductive DbBackend where
  | Postgres
  | Sqlite
  | Mysql
deriving DecidableEq

/-- The struct `DatabaseEntry` from src/db/mod.rs.  The `pool` field (a live
connection pool) is external I/O state and is not modelled. -/
structure DatabaseEntry where
  name : Str
  backend : DbBackend
  url_redacted : Str
deriving DecidableEq

/-- The struct `DatabaseManager` from src/db/mod.rs. -/
structure DatabaseManager where
  databases : List DatabaseEntry
deriving DecidableEq

/-- The `DatabaseNotFound` message built in `DatabaseManager::resolve`
(src/db/mod.rs lines 86-90): quotes the requested name and joins every known
logical name with `", "`. -/
def notFoundMsg (name : Str) (dbs : List DatabaseEntry) : Str :=
  "\x27".data ++ name ++ "\x27 not found. Available: ".data ++
  joinComma (dbs.map (fun d => d.name))

/-- Embeds `DatabaseManager::resolve` (src/db/mod.rs lines 79-100).  The
source returns `&self.databases[0]` after checking `len() == 1`; the
single-element match below is the same function. -/
def resolve (m : DatabaseManager) : Option Str → Except McpSqlError DatabaseEntry
  | some name =>
    match m.databases.find? (fun d => d.name == name) with
    | some d => Except.ok d
    | none => Except.error (McpSqlError.DatabaseNotFound (notFoundMsg name m.databases))
  | none =>
    match m.databases with
    | [d] => Except.ok d
    | _ => Except.error McpSqlError.AmbiguousDatabase

/-- An `f64` value as seen by src/db/convert.rs.  No float arithmetic occurs
there: a decoded float is only passed to `serde_json::Number::from_f64`,
which succeeds exactly when the value is finite (neither NaN nor infinite).
The model therefore keeps the finiteness flag and an abstract identity for
the numeral. -/
structure F64 where
  finite : Bool
  ident : Int
deriving DecidableEq

/-- A `serde_json` number: an integer (from `i16`/`i32`/`i64` via `into`) or
a finite float. -/
inductive JNum where
  | int (n : Int)
  | float (f : F64)
deriving DecidableEq

/-- Embeds `serde_json::Number::from_f64`: `some` exactly on finite floats. -/
def from_f64 (f : F64) : Option JNum :=
  if f.finite then some (JNum.float f) else none

/-- A `serde_json::Value` as produced by src/db/convert.rs. -/
inductive Json where
  | null
  | bool (b : Bool)
  | num (n : JNum)
  | str (s : Str)
  | arr (xs : List Json)
  | obj (fields : List (Str × Json))

/-- One raw column slot of an `AnyRow`, as probed by `decode_column`
(src/db/convert.rs).  `raw` models `try_get_raw(ordinal)`: `none` when that
call errs, `some b` when it returns a value whose `is_null()` is `b`.  Each
`as*` field models the corresponding `try_get::<T>` attempt: `none` for a
decode error, `some v` for success.  `asBytes` models `try_get::<Vec<u8>>`
as the byte list. -/
structure RawColumn where
  raw : Option Bool
  asBool : Option Bool
  asI16 : Option Int
  asI32 : Option Int
  asI64 : Option Int
  asF64 : Option F64
  asBytes : Option (List Nat)
  asString : Option Str

/-- The `"BOOL" | "BOOLEAN"` match arm of `decode_column`. -/
def boolNames : List Str := ["BOOL".data, "BOOLEAN".data]

/-- The `"INT2" | "SMALLINT" | "TINYINT"` match arm of `decode_column`. -/
def int2Names : List Str := ["INT2".data, "SMALLINT".data, "TINYINT".data]

/-- The `"INT" | "INT4" | "INTEGER" | "MEDIUMINT"` match arm of `decode_column`. -/
def int4Names : List Str := ["INT".data, "INT4".data, "INTEGER".data, "MEDIUMINT".data]

/-- The `"INT8" | "BIGINT"` match arm of `decode_column`. -/
def int8Names : List Str := ["INT8".data, "BIGINT".data]

/-- The `"FLOAT4" | "REAL" | "FLOAT"` match arm of `decode_column`. -/
def float4Names : List Str := ["FLOAT4".data, "REAL".data, "FLOAT".data]

/-- The `"FLOAT8" | "DOUBLE" | "DOUBLE PRECISION" | "NUMERIC" | "DECIMAL"`
match arm of `decode_column`. -/
def float8Names : List Str :=
  ["FLOAT8".data, "DOUBLE".data, "DOUBLE PRECISION".data, "NUMERIC".data, "DECIMAL".data]

/-- The blob-types match arm of `decode_column`. -/
def blobNames : List Str :=
  ["BYTEA".data, "BLOB".data, "BINARY".data, "VARBINARY".data,
   "LONGBLOB".data, "MEDIUMBLOB".data, "TINYBLOB".data]

/-- Every declared type name with an explicit match arm in `decode_column`;
all others (text types included) hit the `_ => {}` arm and fall through to
the fallback chain. -/
def recognizedTypeNames : List Str :=
  boolNames ++ int2Names ++ int4Names ++ int8Names ++
  float4Names ++ float8Names ++ blobNames

/-- The float branches of `decode_column`:
`from_f64(v).map(Value::Number).unwrap_or(Value::Null)`. -/
def floatJson (f : F64) : Json :=
  match from_f64 f with
  | some n => Json.num n
  | none => Json.null

/-- The blob summary string built in `decode_column`:
`format!("(blob: {} bytes)", v.len())`. -/
def blobMsg (len : Nat) : Str :=
  "(blob: ".data ++ Nat.toDigits 10 len ++ " bytes)".data

/-- The type-name dispatch of `decode_column` (src/db/convert.rs lines
29-79): `some v` when a match arm's `try_get` succeeds and returns early,
`none` when the arm's decode fails or no arm matches (both fall through). -/
def typed_decode (col : RawColumn) (type_name : Str) : Option Json :=
  if type_name ∈ boolNames then col.asBool.map Json.bool
  else if type_name ∈ int2Names then col.asI16.map (fun v => Json.num (JNum.int v))
  else if type_name ∈ int4Names then col.asI32.map (fun v => Json.num (JNum.int v))
  else if type_name ∈ int8Names then col.asI64.map (fun v => Json.num (JNum.int v))
  else if type_name ∈ float4Names then col.asF64.map floatJson
  else if type_name ∈ float8Names then col.asF64.map floatJson
  else if type_name ∈ blobNames then col.asBytes.map (fun v => Json.str (blobMsg v.length))
  else none

/-- The fallback chain of `decode_column` (src/db/convert.rs lines 81-97):
try `i64`, then `f64` (kept only when `from_f64` accepts it), then `bool`,
then `String`; first success wins, otherwise `Null`. -/
def fallback_decode (col : RawColumn) : Json :=
  match col.asI64 with
  | some v => Json.num (JNum.int v)
  | none =>
    match col.asF64.bind from_f64 with
    | some n => Json.num n
    | none =>
      match col.asBool with
      | some b => Json.bool b
      | none =>
        match col.asString with
        | some s => Json.str s
        | none => Json.null

/-- Embeds `decode_column` (src/db/convert.rs lines 21-98): probe for NULL
first, then dispatch on the declared type name, then fall back. -/
def decode_column (col : RawColumn) (type_name : Str) : Json :=
  if col.raw = some true then Json.null
  else
    match typed_decode col type_name with
    | some v => v
    | none => fallback_decode col

/-- Modelled from the spec's words, for comparison with `fallback_decode`:
the four probes of the fallback chain, in the spec's order. -/
def fallback_probes (col : RawColumn) : List (Option Json) :=
  [col.asI64.map (fun v => Json.num (JNum.int v)),
   (col.asF64.bind from_f64).map Json.num,
   col.asBool.map Json.bool,
   col.asString.map Json.str]

/-- Modelled from the spec's words: the first successful probe wins; if all
fail the result is `Null`. -/
def first_success (ps : List (Option Json)) : Json :=
  (ps.findSome? id).getD Json.null

/-- One column of an `AnyRow` together with its metadata, as consumed by
`row_to_json` (src/db/convert.rs lines 6-19): the column name, the declared
type name reported by `type_info().name()`, and the raw value slot. -/
structure SqlCol where
  name : Str
  type_name : Str
  val : RawColumn

/-- A query result row: its columns in ordinal order. -/
abbrev SqlRow := List SqlCol

/-- Insertion into a `serde_json::Map`: replaces the value when the key is
present, otherwise appends.  (The source map is a `BTreeMap`, whose key
order matters only for pretty-printing; no claim depends on field order.) -/
def objInsert (fields : List (Str × Json)) (k : Str) (v : Json) : List (Str × Json) :=
  if fields.any (fun p => p.1 == k) then
    fields.map (fun p => if p.1 == k then (p.1, v) else p)
  else fields ++ [(k, v)]

/-- `serde_json::Map::get`. -/
def objGet (fields : List (Str × Json)) (k : Str) : Option Json :=
  (fields.find? (fun p => p.1 == k)).map (fun p => p.2)

/-- `map.get(k).and_then(|v| v.as_str())`: `some` only on `String` values. -/
def objGetStr (fields : List (Str × Json)) (k : Str) : Option Str :=
  match objGet fields k with
  | some (Json.str s) => some s
  | _ => none

/-- Embeds `row_to_json` (src/db/convert.rs lines 6-19): one map entry per
column, keyed by column name, valued by `decode_column` applied to the raw
slot and the uppercased declared type name. -/
def row_to_json (row : SqlRow) : Json :=
  Json.obj (row.foldl
    (fun obj col => objInsert obj col.name (decode_column col.val (toUpperStr col.type_name)))
    [])

/-- `sqlx::Row::try_get::<String>(name)`: find the column by name, then
decode it as a string. -/
def tryGetString (row : SqlRow) (name : Str) : Option Str :=
  (row.find? (fun c => c.name == name)).bind (fun c => c.val.asString)

/-- `sqlx::Row::try_get::<i32>(name)`. -/
def tryGetI32 (row : SqlRow) (name : Str) : Option Int :=
  (row.find? (fun c => c.name == name)).bind (fun c => c.val.asI32)

/-- Lookup in a `HashMap` collected from a pair list: on duplicate keys the
last insertion wins. -/
def hashGet (pairs : List (Str × Str)) (k : Str) : Option Str :=
  (pairs.reverse.find? (fun p => p.1 == k)).map (fun p => p.2)

/-- The foreign-key pair extraction shared by the Postgres and MySQL paths of
`describe_table` (src/db/dialect.rs): keep the rows where both
`column_name` and `references_col` decode as strings. -/
def fkPairs (fkRows : List SqlRow) : List (Str × Str) :=
  fkRows.filterMap (fun r =>
    (tryGetString r "column_name".data).bind (fun col =>
      (tryGetString r "references_col".data).map (fun refs => (col, refs))))

/-- The foreign-key enrichment loop shared by the Postgres and MySQL paths of
`describe_table`: on object rows, look up the `name` field (defaulting to
`""`) in the FK map and insert the result as `foreign_key`. -/
def addFk (pairs : List (Str × Str)) (j : Json) : Json :=
  match j with
  | Json.obj fields =>
    let colName := (objGetStr fields "name".data).getD []
    let fk := match hashGet pairs colName with
      | some s => Json.str s
      | none => Json.null
    Json.obj (objInsert fields "foreign_key".data fk)
  | other => other

/-- The not-found message `format!("Table '{table}' not found")` built by all
three `describe_table_*` functions (src/db/dialect.rs). -/
def tblNotFoundMsg (table : Str) : Str :=
  "Table \x27".data ++ table ++ "\x27 not found".data

/-- Embeds `describe_table_postgres` (src/db/dialect.rs lines 50-118) from
the point where its two catalog queries have returned.  `rows` is the column
query's result; `fkFetch` is the FK query's outcome (`none` for a fetch
error, absorbed by `unwrap_or_default`).  The `schema.table` split only
parameterizes the SQL sent to the backend and so lives outside the model. -/
def describe_table_postgres (table : Str) (rows : List SqlRow)
    (fkFetch : Option (List SqlRow)) : Except McpSqlError (List Json) :=
  if rows.isEmpty then Except.error (McpSqlError.Other (tblNotFoundMsg table))
  else Except.ok ((rows.map row_to_json).map (addFk (fkPairs (fkFetch.getD []))))

/-- Embeds `describe_table_mysql` (src/db/dialect.rs lines 166-206) from the
point where its two information-schema queries have returned; the row
processing is identical to the Postgres path. -/
def describe_table_mysql (table : Str) (rows : List SqlRow)
    (fkFetch : Option (List SqlRow)) : Except McpSqlError (List Json) :=
  if rows.isEmpty then Except.error (McpSqlError.Other (tblNotFoundMsg table))
  else Except.ok ((rows.map row_to_json).map (addFk (fkPairs (fkFetch.getD []))))

/-- The foreign-key pair extraction of the SQLite path
(`PRAGMA foreign_key_list` rows): `from` maps to `"{table}.{to}"`. -/
def sqliteFkPairs (fkRows : List SqlRow) : List (Str × Str) :=
  fkRows.filterMap (fun r =>
    (tryGetString r "from".data).bind (fun src =>
      (tryGetString r "table".data).bind (fun refTable =>
        (tryGetString r "to".data).map (fun refCol =>
          (src, refTable ++ ".".data ++ refCol)))))

/-- One output object of `describe_table_sqlite` (src/db/dialect.rs lines
144-161), built from a `PRAGMA table_info` row with `unwrap_or` defaults. -/
def sqliteRowJson (pairs : List (Str × Str)) (row : SqlRow) : Json :=
  let name := (tryGetString row "name".data).getD []
  let colType := (tryGetString row "type".data).getD []
  let notnull := (tryGetI32 row "notnull".data).getD 0
  let dflt := tryGetString row "dflt_value".data
  let pk := (tryGetI32 row "pk".data).getD 0
  Json.obj
    [("name".data, Json.str name),
     ("type".data, Json.str colType),
     ("nullable".data, Json.str (if notnull = 0 then "YES".data else "NO".data)),
     ("default_value".data, match dflt with
       | some s => Json.str s
       | none => Json.null),
     ("primary_key".data, Json.str (if pk > 0 then "YES".data else "NO".data)),
     ("foreign_key".data, match hashGet pairs name with
       | some s => Json.str s
       | none => Json.null)]

/-- Embeds `describe_table_sqlite` (src/db/dialect.rs lines 120-164) from
the point where its PRAGMA queries have returned: the table name must first
pass `sanitize_identifier` (the sanitized name only parameterizes the PRAGMA
text sent to the backend), then an empty result is the not-found failure. -/
def describe_table_sqlite (table : Str) (rows : List SqlRow)
    (fkFetch : Option (List SqlRow)) : Except McpSqlError (List Json) :=
  match sanitize_identifier table with
  | Except.error e => Except.error e
  | Except.ok _ =>
    if rows.isEmpty then Except.error (McpSqlError.Other (tblNotFoundMsg table))
    else Except.ok (rows.map (sqliteRowJson (sqliteFkPairs (fkFetch.getD []))))

/-- A collected foreign-key reference of `generate_mermaid_er`
(src/schema.rs line 28): `(from_table, to_table, from_col, to_col)`. -/
abbrev Rel := Str × Str × Str × Str

/-- The key under which `generate_mermaid_er` deduplicates a reference: the
ordered `(from_table, to_table)` pair. -/
def pairOf (r : Rel) : Str × Str := (r.1, r.2.1)

/-- One step of the `seen.entry(..).or_insert_with(..)` loop
(src/schema.rs lines 86-90), restricted to the key set: a key already seen
is kept, a new key is added.  The stored `from_col` value is never read
afterwards (only `seen.keys()` is iterated) and is dropped from the model. -/
def insertPair (acc : List (Str × Str)) (p : Str × Str) : List (Str × Str) :=
  if p ∈ acc then acc else acc ++ [p]

/-- The deduplicated `(from_table, to_table)` keys of the collected
references.  `HashMap` iteration order is unspecified in the source; the
model fixes first-insertion order, and every theorem below is insensitive to
the order. -/
def dedupPairs (rels : List Rel) : List (Str × Str) :=
  rels.foldl (fun acc r => insertPair acc (pairOf r)) []

/-- One relationship line of the diagram (src/schema.rs line 92):
`format!("    {} ||--o{{ {} : \"\"\n", to, from)`. -/
def relLine (p : Str × Str) : Str :=
  "    ".data ++ p.2 ++ " ||--o\x7b ".data ++ p.1 ++ " : \"\"\n".data

/-- The relationship section of `generate_mermaid_er` (src/schema.rs lines
84-93): one line per surviving deduplicated pair. -/
def relationship_lines (rels : List Rel) : List Str :=
  (dedupPairs rels).map relLine

/-- Modelled from the claim's words, for comparison with `dedupPairs`: two
table pairs are the same unordered pair when they are equal or swapped. -/
def sameUnordered (p q : Str × Str) : Prop :=
  p = q ∨ (p.1 = q.2 ∧ p.2 = q.1)

end McpSql

namespace McpSql

example : check_read_only "SELECT * FROM t".data = Except.ok () := rfl
example : check_read_only "  with x as (q) select 1".data = Except.ok () := rfl
example : check_read_only "SHOW TABLES".data = Except.ok () := rfl
example : check_read_only "PRAGMA x".data = Except.ok () := rfl
example : check_read_only "EXPLAIN SELECT 1".data = Except.ok () := rfl
example : check_read_only "INSERT INTO t VALUES (1)".data =
    Except.error (McpSqlError.ReadOnly readOnlyMsg) := rfl
example : check_read_only "DROP TABLE t".data =
    Except.error (McpSqlError.ReadOnly readOnlyMsg) := rfl
example : inject_limit "SELECT * FROM users".data 100 =
    "SELECT * FROM users LIMIT 100".data := by decide
example : inject_limit "SELECT * FROM users;".data 100 =
    "SELECT * FROM users LIMIT 100".data := by decide
example : inject_limit "SELECT * FROM users LIMIT 10".data 100 =
    "SELECT * FROM users LIMIT 10".data := by decide
example : inject_limit "INSERT INTO users VALUES (1)".data 100 =
    "INSERT INTO users VALUES (1)".data := by decide
example : inject_limit "WITH cte AS (SELECT 1) SELECT * FROM cte".data 50 =
    "WITH cte AS (SELECT 1) SELECT * FROM cte LIMIT 50".data := by decide

example : sanitize_identifier "users".data = Except.ok "users".data := rfl
example : sanitize_identifier "public.users".data = Except.ok "public.users".data := rfl
example : sanitize_identifier "my_table".data = Except.ok "my_table".data := rfl
example : sanitize_identifier "my-table".data = Except.ok "my-table".data := rfl
example : sanitize_identifier [] =
    Except.error (McpSqlError.InvalidSql (invalidIdentMsg [])) := rfl
example : sanitize_identifier "users; DROP TABLE users".data =
    Except.error (McpSqlError.InvalidSql (invalidIdentMsg "users; DROP TABLE users".data)) := rfl
example : sanitize_identifier ['u', '"'] =
    Except.error (McpSqlError.InvalidSql (invalidIdentMsg ['u', '"'])) := rfl
example : sanitize_identifier ['é'] = Except.ok ['é'] := rfl

example :
    resolve ⟨[⟨"memory".data, DbBackend.Sqlite, "sqlite::memory:".data⟩]⟩ none =
      Except.ok ⟨"memory".data, DbBackend.Sqlite, "sqlite::memory:".data⟩ := rfl
example :
    resolve ⟨[]⟩ none = Except.error McpSqlError.AmbiguousDatabase := rfl
example :
    resolve ⟨[⟨"a".data, DbBackend.Sqlite, "u".data⟩, ⟨"b".data, DbBackend.Mysql, "v".data⟩]⟩
      none = Except.error McpSqlError.AmbiguousDatabase := rfl
example :
    resolve ⟨[⟨"a".data, DbBackend.Sqlite, "u".data⟩]⟩ (some "a".data) =
      Except.ok ⟨"a".data, DbBackend.Sqlite, "u".data⟩ := rfl
example :
    resolve ⟨[⟨"a".data, DbBackend.Sqlite, "u".data⟩, ⟨"b".data, DbBackend.Mysql, "v".data⟩]⟩
      (some "z".data) =
      Except.error (McpSqlError.DatabaseNotFound ("\x27z\x27 not found. Available: a, b".data)) := rfl

/-- A raw slot with every probe failing, used to build concrete columns. -/
def emptyRaw : RawColumn :=
  { raw := none, asBool := none, asI16 := none, asI32 := none,
    asI64 := none, asF64 := none, asBytes := none, asString := none }

example :
    decode_column { emptyRaw with raw := some true, asBool := some true } "BOOLEAN".data =
      Json.null := rfl
example :
    decode_column { emptyRaw with raw := some false, asBool := some true } "BOOLEAN".data =
      Json.bool true := rfl
example :
    decode_column { emptyRaw with asI16 := some 7 } "SMALLINT".data =
      Json.num (JNum.int 7) := rfl
example :
    decode_column { emptyRaw with asBytes := some [10, 20] } "BLOB".data =
      Json.str "(blob: 2 bytes)".data := rfl
example :
    decode_column { emptyRaw with asF64 := some ⟨false, 0⟩ } "REAL".data = Json.null := rfl
example :
    decode_column { emptyRaw with asF64 := some ⟨true, 3⟩ } "DOUBLE PRECISION".data =
      Json.num (JNum.float ⟨true, 3⟩) := rfl
example :
    decode_column { emptyRaw with asF64 := some ⟨false, 0⟩, asBool := some true }
      "TEXT".data = Json.bool true := rfl
example :
    decode_column { emptyRaw with asString := some "hi".data } "TEXT".data =
      Json.str "hi".data := rfl
example : decode_column emptyRaw "WHATEVER".data = Json.null := rfl

example :
    describe_table_sqlite "nope".data [] none =
      Except.error (McpSqlError.Other "Table \x27nope\x27 not found".data) := rfl
example :
    describe_table_sqlite "bad name".data [] none =
      Except.error (McpSqlError.InvalidSql (invalidIdentMsg "bad name".data)) := rfl

example :
    relationship_lines
      [("orders".data, "users".data, "user_id".data, "id".data),
       ("orders".data, "users".data, "billing_id".data, "id".data)] =
      ["    users ||--o\x7b orders : \"\"\n".data] := rfl

/-- Unfolding equation of `resolve` for a named lookup. -/
theorem resolve_some (m : DatabaseManager) (name : Str) :
    resolve m (some name) =
      (match m.databases.find? (fun d => d.name == name) with
      | some d => Except.ok d
      | none => Except.error (McpSqlError.DatabaseNotFound (notFoundMsg name m.databases))) :=
  rfl

/-- Unfolding equation of `resolve` for an anonymous lookup. -/
theorem resolve_none (m : DatabaseManager) :
    resolve m none =
      (match m.databases with
      | [d] => Except.ok d
      | _ => Except.error McpSqlError.AmbiguousDatabase) :=
  rfl

/-- Every member of a joined list is a contiguous substring of the join. -/
theorem joinComma_infix (xs : List Str) (x : Str) (hx : x ∈ xs) :
    x <:+: joinComma xs := by
  induction xs with
  | nil => cases hx
  | cons a rest ih =>
    cases rest with
    | nil =>
      rcases List.mem_cons.mp hx with rfl | h
      · exact ⟨[], [], by simp [joinComma]⟩
      · cases h
    | cons b u =>
      rcases List.mem_cons.mp hx with rfl | h
      · exact ⟨[], ", ".data ++ joinComma (b :: u), by simp [joinComma]⟩
      · obtain ⟨s, v, hsv⟩ := ih h
        exact ⟨a ++ ", ".data ++ s, v,
          by simp [joinComma, hsv, List.append_assoc]⟩

/-- Membership after one dedup-map insertion step. -/
theorem dedup_insert_mem (acc : List (Str × Str)) (q p : Str × Str) :
    p ∈ insertPair acc q ↔ p ∈ acc ∨ p = q := by
  unfold insertPair
  split
  · rename_i hq
    constructor
    · exact Or.inl
    · rintro (h | rfl)
      · exact h
      · exact hq
  · simp [List.mem_append]

/-- Membership in the folded dedup map: the accumulated keys plus the pair
key of any processed reference. -/
theorem dedup_foldl_mem (rels : List Rel) (acc : List (Str × Str)) (p : Str × Str) :
    p ∈ rels.foldl (fun a r => insertPair a (pairOf r)) acc ↔
      p ∈ acc ∨ ∃ r ∈ rels, pairOf r = p := by
  induction rels generalizing acc with
  | nil => simp
  | cons r rest ih =>
    rw [List.foldl_cons, ih, dedup_insert_mem]
    constructor
    · rintro ((h | rfl) | ⟨e, he, hp⟩)
      · exact Or.inl h
      · exact Or.inr ⟨r, List.mem_cons_self r rest, rfl⟩
      · exact Or.inr ⟨e, List.mem_cons_of_mem r he, hp⟩
    · rintro (h | ⟨e, he, hp⟩)
      · exact Or.inl (Or.inl h)
      · rcases List.mem_cons.mp he with rfl | h2
        · exact Or.inl (Or.inr hp.symm)
        · exact Or.inr ⟨e, h2, hp⟩

/-- The folded dedup map never holds a key twice. -/
theorem dedup_foldl_nodup (rels : List Rel) (acc : List (Str × Str))
    (hacc : acc.Nodup) :
    (rels.foldl (fun a r => insertPair a (pairOf r)) acc).Nodup := by
  induction rels generalizing acc with
  | nil => simpa
  | cons r rest ih =>
    rw [List.foldl_cons]
    apply ih
    unfold insertPair
    split
    · exact hacc
    · rename_i hq
      simp [List.nodup_append, hacc, hq]

/-- Claim C3: whenever the raw value of a column is null (the
`try_get_raw` probe returns a value whose `is_null()` holds), the converted
value is `Null`, whatever the declared type name and whatever any
type-directed decoder would have returned. -/
theorem decode_column_null_probe (col : RawColumn) (type_name : Str) :
    col.raw = some true → decode_column col type_name = Json.null := by
  intro h
  simp [decode_column, h]

/-- Claim C3, witness: a null raw value whose every typed decoder would
succeed still converts to `Null`. -/
theorem decode_column_null_probe_witness :
    decode_column
      { raw := some true, asBool := some true, asI16 := some 1, asI32 := some 2,
        asI64 := some 3, asF64 := some ⟨true, 4⟩, asBytes := some [5],
        asString := some "s".data } "BOOLEAN".data = Json.null :=
  decode_column_null_probe _ _ rfl

/-- Claim C4: conversion is total by construction (`decode_column` returns a
`Json` value, never an error), and on a declared type name outside every
recognized family the result is the fallback chain: integer, then float
(kept only when finitely representable), then boolean, then string, first
success wins, `Null` when all fail. -/
theorem decode_column_unrecognized_fallback (col : RawColumn) (type_name : Str)
    (hty : type_name ∉ recognizedTypeNames) (hnull : col.raw ≠ some true) :
    decode_column col type_name = first_success (fallback_probes col) := by
  simp only [recognizedTypeNames, List.mem_append] at hty
  push_neg at hty
  obtain ⟨⟨⟨⟨⟨⟨h1, h2⟩, h3⟩, h4⟩, h5⟩, h6⟩, h7⟩ := hty
  have htyped : typed_decode col type_name = none := by
    simp [typed_decode, h1, h2, h3, h4, h5, h6, h7]
  have hdec : decode_column col type_name = fallback_decode col := by
    simp [decode_column, hnull, htyped]
  rw [hdec]
  cases h64 : col.asI64 with
  | some v => simp [fallback_decode, first_success, fallback_probes, h64]
  | none =>
    cases hf : col.asF64.bind from_f64 with
    | some n => simp [fallback_decode, first_success, fallback_probes, h64, hf]
    | none =>
      cases hb : col.asBool with
      | some b => simp [fallback_decode, first_success, fallback_probes, h64, hf, hb]
      | none =>
        cases hs : col.asString with
        | some str => simp [fallback_decode, first_success, fallback_probes, h64, hf, hb, hs]
        | none => simp [fallback_decode, first_success, fallback_probes, h64, hf, hb, hs]

/-- Claim C4, witness: on declared type `TEXT` (no match arm) with a failed
integer probe and a NaN float probe, the chain correctly skips to the
boolean probe. -/
theorem decode_column_unrecognized_fallback_witness :
    decode_column
      { emptyRaw with raw := some false, asF64 := some ⟨false, 0⟩, asBool := some true }
      "TEXT".data =
    first_success (fallback_probes
      { emptyRaw with raw := some false, asF64 := some ⟨false, 0⟩, asBool := some true }) :=
  decode_column_unrecognized_fallback _ _ (by decide) (by decide)

/-- Claim C5: named resolution returns the first entry with the requested
logical name; a miss is `DatabaseNotFound` with a message that contains
every known name; anonymous resolution succeeds exactly on a one-entry
registry and is `AmbiguousDatabase` otherwise. -/
theorem resolve_specification (m : DatabaseManager) :
    (∀ name d, resolve m (some name) = Except.ok d ↔
      d.name = name ∧ ∃ pre post, m.databases = pre ++ d :: post ∧
        ∀ e ∈ pre, e.name ≠ name)
    ∧ (∀ name, (∀ e ∈ m.databases, e.name ≠ name) →
      resolve m (some name) =
        Except.error (McpSqlError.DatabaseNotFound (notFoundMsg name m.databases))
      ∧ ∀ e ∈ m.databases, e.name <:+: notFoundMsg name m.databases)
    ∧ (∀ d, resolve m none = Except.ok d ↔ m.databases = [d])
    ∧ (m.databases.length ≠ 1 →
      resolve m none = Except.error McpSqlError.AmbiguousDatabase) := by
  refine ⟨fun name d => ?_, fun name hnone => ?_, fun d => ?_, fun hlen => ?_⟩
  · rw [resolve_some]
    constructor
    · intro h
      split at h
      · rename_i e hf
        simp only [Except.ok.injEq] at h
        subst h
        obtain ⟨hp, pre, post, hsplit, hpre⟩ := List.find?_eq_some.mp hf
        refine ⟨by simpa using hp, pre, post, hsplit, fun a ha => ?_⟩
        simpa using hpre a ha
      · exact absurd h (by simp)
    · rintro ⟨hdn, pre, post, hsplit, hpre⟩
      have hf : m.databases.find? (fun e => e.name == name) = some d := by
        rw [List.find?_eq_some]
        refine ⟨by simpa using hdn, pre, post, hsplit, fun a ha => ?_⟩
        simpa using hpre a ha
      rw [hf]
  · have hf : m.databases.find? (fun e => e.name == name) = none := by
      rw [List.find?_eq_none]
      intro x hx
      simp [hnone x hx]
    constructor
    · rw [resolve_some, hf]
    · intro e he
      have hmem : e.name ∈ m.databases.map (fun d => d.name) :=
        List.mem_map_of_mem _ he
      obtain ⟨s, t, hst⟩ := joinComma_infix (m.databases.map (fun d => d.name)) e.name hmem
      exact ⟨"\x27".data ++ name ++ "\x27 not found. Available: ".data ++ s, t,
        by simp [notFoundMsg, hst, List.append_assoc]⟩
  · rw [resolve_none]
    cases m.databases with
    | nil => simp
    | cons a rest =>
      cases rest with
      | nil => simp
      | cons b u => simp
  · rw [resolve_none]
    cases hm : m.databases with
    | nil => rfl
    | cons a rest =>
      cases rest with
      | nil =>
        rw [hm] at hlen
        simp at hlen
      | cons b u => rfl

/-- Claim C5, witness: on a two-entry registry, anonymous resolution fails
with `AmbiguousDatabase`. -/
theorem resolve_specification_witness :
    resolve ⟨[⟨"a".data, DbBackend.Sqlite, "u".data⟩,
              ⟨"b".data, DbBackend.Mysql, "v".data⟩]⟩ none =
      Except.error McpSqlError.AmbiguousDatabase :=
  (resolve_specification _).2.2.2 (by decide)

/-- Claim C7, counterexample: on an empty introspection result each dialect
fails, but with the generic `Other` error kind carrying the message
`Table 'nosuch' not found` — the error enum of src/error.rs has no
`TableNotFound` kind at all. -/
theorem describe_table_other_kind_counterexample :
    describe_table_postgres "nosuch".data [] none =
      Except.error (McpSqlError.Other "Table 'nosuch' not found".data) ∧
    describe_table_sqlite "nosuch".data [] none =
      Except.error (McpSqlError.Other "Table 'nosuch' not found".data) ∧
    describe_table_mysql "nosuch".data [] none =
      Except.error (McpSqlError.Other "Table 'nosuch' not found".data) :=
  ⟨rfl, rfl, rfl⟩

/-- Claim C7, amended: on an empty introspection result, `describe_table`
fails uniformly across the three dialects with the `Other` error kind and
message `Table '<table>' not found` (for SQLite, once the table name has
passed the identifier sanitizer, which runs before the query). -/
theorem describe_table_empty_result_error (table : Str) (fkFetch : Option (List SqlRow)) :
    describe_table_postgres table [] fkFetch =
      Except.error (McpSqlError.Other (tblNotFoundMsg table))
    ∧ describe_table_mysql table [] fkFetch =
      Except.error (McpSqlError.Other (tblNotFoundMsg table))
    ∧ (∀ safe, sanitize_identifier table = Except.ok safe →
      describe_table_sqlite table [] fkFetch =
        Except.error (McpSqlError.Other (tblNotFoundMsg table))) := by
  refine ⟨rfl, rfl, fun safe hs => ?_⟩
  unfold describe_table_sqlite
  rw [hs]
  rfl

/-- Claim C7, witness: the amended claim applied to the SQLite dialect and
the valid table name `users`. -/
theorem describe_table_empty_result_error_witness :
    describe_table_sqlite "users".data [] none =
      Except.error (McpSqlError.Other (tblNotFoundMsg "users".data)) :=
  (describe_table_empty_result_error "users".data none).2.2 "users".data rfl

/-- Claim C8, counterexample: a reference from `a` to `b` and one from `b`
to `a` form a single unordered table pair, yet two relationship lines are
emitted — `generate_mermaid_er` deduplicates by the ordered pair. -/
theorem relationship_lines_unordered_counterexample :
    sameUnordered (pairOf ("a".data, "b".data, "x".data, "y".data))
        (pairOf ("b".data, "a".data, "u".data, "v".data)) ∧
    pairOf ("a".data, "b".data, "x".data, "y".data) ≠
      pairOf ("b".data, "a".data, "u".data, "v".data) ∧
    (relationship_lines
      [("a".data, "b".data, "x".data, "y".data),
       ("b".data, "a".data, "u".data, "v".data)]).length = 2 := by
  refine ⟨Or.inr ⟨rfl, rfl⟩, by decide, by decide⟩

/-- Claim C8, amended: foreign-key edges are deduplicated by the ordered
`(referencing_table, referenced_table)` pair: a pair key survives exactly
when some collected reference carries it, the surviving keys are free of
duplicates (so multiple columns referencing the same ordered pair yield one
key), and the relationship section is one line per surviving key. -/
theorem relationship_lines_ordered_dedup (rels : List Rel) :
    (∀ p, p ∈ dedupPairs rels ↔ ∃ r ∈ rels, pairOf r = p)
    ∧ (dedupPairs rels).Nodup
    ∧ relationship_lines rels = (dedupPairs rels).map relLine := by
  refine ⟨fun p => ?_, dedup_foldl_nodup rels [] List.nodup_nil, rfl⟩
  unfold dedupPairs
  rw [dedup_foldl_mem]
  simp

/-- Claim C1, counterexample: the classifier accepts `"WITHDRAW 1"`, whose
first token `WITHDRAW` is not in the allow-list — `check_read_only` tests
`starts_with`, not token equality, so the claimed if-and-only-if fails. -/
theorem check_read_only_first_token_counterexample :
    check_read_only "WITHDRAW 1".data = Except.ok () ∧
    firstTokenUpper "WITHDRAW 1".data ∉ allowedKeywords :=
  ⟨rfl, by decide⟩

/-- Claim C1, amended: the classifier accepts a statement exactly when its
uppercased, left-trimmed text has one of `SELECT`, `WITH`, `SHOW`, `PRAGMA`,
`EXPLAIN` as a prefix (not necessarily as its whole first token), and every
other statement is rejected with the `ReadOnly` (`WriteRejected`) error. -/
theorem check_read_only_allows_iff_keyword_prefixed (sql : Str) :
    (check_read_only sql = Except.ok () ↔
      ∃ p ∈ allowedKeywords, p <+: toUpperStr (trimStart sql))
    ∧ (check_read_only sql = Except.error (McpSqlError.ReadOnly readOnlyMsg) ↔
      ¬ ∃ p ∈ allowedKeywords, p <+: toUpperStr (trimStart sql)) := by
  have key : (allowedKeywords.any (fun p => startsWith (toUpperStr (trimStart sql)) p) = true) ↔
      ∃ p ∈ allowedKeywords, p <+: toUpperStr (trimStart sql) := by
    simp [startsWith, List.any_eq_true]
  rw [← key]
  by_cases h : allowedKeywords.any (fun p => startsWith (toUpperStr (trimStart sql)) p) = true
  · simp [check_read_only, h]
  · simp [check_read_only, h]

/-- Claim C2: when the uppercased statement begins (after leading
whitespace) with `SELECT` or `WITH` and does not contain the substring
`" LIMIT "` (case-insensitively), `inject_limit` strips the trailing
terminator (trailing whitespace, then trailing semicolons) and appends
`" LIMIT <limit>"`; otherwise the statement passes through unchanged. -/
theorem inject_limit_characterization (sql : Str) (limit : Nat) :
    (beginsSelectOrWith sql = true → hasLimitSub sql = false →
      inject_limit sql limit =
        stripTerminator sql ++ " LIMIT ".data ++ Nat.toDigits 10 limit)
    ∧ (beginsSelectOrWith sql = false → inject_limit sql limit = sql)
    ∧ (hasLimitSub sql = true → inject_limit sql limit = sql) := by
  refine ⟨fun h1 h2 => ?_, fun h1 => ?_, fun h2 => ?_⟩
  · simp [inject_limit, h1, h2]
  · simp [inject_limit, h1]
  · by_cases h1 : beginsSelectOrWith sql <;> simp [inject_limit, h1, h2]

/-- Claim C2, witness: the characterization applied to
`inject_limit("SELECT * FROM users", 100)`. -/
theorem inject_limit_characterization_witness :
    inject_limit "SELECT * FROM users".data 100 =
      stripTerminator "SELECT * FROM users".data ++ " LIMIT ".data ++ Nat.toDigits 10 100 :=
  (inject_limit_characterization "SELECT * FROM users".data 100).1 (by decide) (by decide)

/-- Claim C9: `inject_limit` is idempotent — a second application to its own
output changes nothing, because an injected output always contains
`" LIMIT "` and an unchanged output repeats the original decision. -/
theorem inject_limit_idempotent (sql : Str) (limit : Nat) :
    inject_limit (inject_limit sql limit) limit = inject_limit sql limit := by
  by_cases h1 : beginsSelectOrWith sql
  · by_cases h2 : hasLimitSub sql
    · have hy : inject_limit sql limit = sql := by simp [inject_limit, h1, h2]
      rw [hy]; exact hy
    · have hy : inject_limit sql limit =
          stripTerminator sql ++ " LIMIT ".data ++ Nat.toDigits 10 limit := by
        simp [inject_limit, h1, h2]
      have hmap : List.map Char.toUpper " LIMIT ".data = " LIMIT ".data := by decide
      have hsub : hasLimitSub
          (stripTerminator sql ++ " LIMIT ".data ++ Nat.toDigits 10 limit) = true := by
        simp only [hasLimitSub, containsSub, toUpperStr, List.map_append, decide_eq_true_eq]
        refine ⟨List.map Char.toUpper (stripTerminator sql),
          List.map Char.toUpper (Nat.toDigits 10 limit), ?_⟩
        rw [hmap]
      rw [hy]
      generalize hG : stripTerminator sql ++ " LIMIT ".data ++ Nat.toDigits 10 limit = Y at hsub
      by_cases h3 : beginsSelectOrWith Y
      · simp [inject_limit, h3, hsub]
      · simp [inject_limit, h3]
  · have hy : inject_limit sql limit = sql := by simp [inject_limit, h1]
    rw [hy]; exact hy

/-- Claim C6, counterexample: the sanitizer accepts `"é"` — Rust
`char::is_alphanumeric` is a Unicode property, so a non-ASCII letter passes,
while the claim says any string with a character outside ASCII
letter/digit/underscore/period/hyphen fails with `InvalidIdentifier`. -/
theorem sanitize_identifier_nonascii_counterexample :
    sanitize_identifier ['é'] = Except.ok ['é'] ∧
    ¬(∀ c ∈ ['é'], asciiIdentChar c = true) :=
  ⟨rfl, by decide⟩

/-- Claim C6, amended: the sanitizer accepts a string exactly when it is
non-empty and every character is Unicode-alphanumeric (per Rust
`char::is_alphanumeric`, which includes non-ASCII letters and digits),
underscore, period, or hyphen; everything else fails with the `InvalidSql`
(`InvalidIdentifier`) error. -/
theorem sanitize_identifier_characterization (name : Str) :
    (sanitize_identifier name = Except.ok name ↔
      name ≠ [] ∧ ∀ c ∈ name, identCharOk c = true)
    ∧ (sanitize_identifier name =
        Except.error (McpSqlError.InvalidSql (invalidIdentMsg name)) ↔
      ¬(name ≠ [] ∧ ∀ c ∈ name, identCharOk c = true)) := by
  have key : (name.all identCharOk && !name.isEmpty) = true ↔
      (name ≠ [] ∧ ∀ c ∈ name, identCharOk c = true) := by
    rw [Bool.and_eq_true, List.all_eq_true]
    constructor
    · rintro ⟨hall, hne⟩
      refine ⟨?_, hall⟩
      intro hnil
      subst hnil
      simp at hne
    · rintro ⟨hne, hall⟩
      refine ⟨hall, ?_⟩
      cases name with
      | nil => exact absurd rfl hne
      | cons a l => rfl
  by_cases h : (name.all identCharOk && !name.isEmpty) = true
  · have hok : sanitize_identifier name = Except.ok name := by
      unfold sanitize_identifier
      rw [if_pos h]
    refine ⟨⟨fun _ => key.mp h, fun _ => hok⟩, fun habs => ?_, fun hc => absurd (key.mp h) hc⟩
    rw [hok] at habs
    exact absurd habs (by simp)
  · have herr : sanitize_identifier name =
        Except.error (McpSqlError.InvalidSql (invalidIdentMsg name)) := by
      unfold sanitize_identifier
      rw [if_neg h]
    have hnot : ¬(name ≠ [] ∧ ∀ c ∈ name, identCharOk c = true) :=
      fun hc => h (key.mpr hc)
    refine ⟨⟨fun habs => ?_, fun hc => absurd hc hnot⟩, fun _ => hnot, fun _ => herr⟩
    rw [herr] at habs
    exact absurd habs (by simp)

/-- Claim C10: validation only — whenever the sanitizer accepts, the string
it returns is the input itself, unescaped and unnormalized. -/
theorem sanitize_identifier_returns_input (name out : Str) :
    sanitize_identifier name = Except.ok out → out = name := by
  unfold sanitize_identifier
  split
  · intro h
    simp only [Except.ok.injEq] at h
    exact h.symm
  · intro h
    simp at h

/-- Claim C10, witness: the theorem applied to the accepted identifier
`"public.users"`. -/
theorem sanitize_identifier_returns_input_witness :
    sanitize_identifier "public.users".data = Except.ok "public.users".data ∧
    "public.users".data = "public.users".data :=
  ⟨rfl, sanitize_identifier_returns_input "public.users".data "public.users".data rfl⟩

end McpSql
